import Mathlib

/-!
Shallow embedding of the 2p-2c box-scheme local Jacobian
(`dumux/boxmodels/2p2c/2pcboxjacobian.hh`, class `TwoPTwoCBoxJacobianBase`),
together with proofs of the specified properties of its storage, flux,
primary-variable-switch, rollback, serialization and static-data-update
routines.

Scalars are modelled by `ℚ` (exact field arithmetic); the two phases and two
components are indexed by `Fin 2`; machine `int` values holding phase-state
tags are modelled by `ℤ`.
-/

namespace TwoPTwoC

/-- Index of the wetting phase (`Indices::wPhase`). -/
def wPhase : Fin 2 := 0

/-- Index of the non-wetting phase (`Indices::nPhase`). -/
def nPhase : Fin 2 := 1

/-- Index of the wetting component (`Indices::wComp`). -/
def wComp : Fin 2 := 0

/-- Index of the non-wetting component (`Indices::nComp`). -/
def nComp : Fin 2 := 1

/-- Phase-state tag: only the wetting phase is present (`Indices::wPhaseOnly`). -/
def wPhaseOnly : ℤ := 0

/-- Phase-state tag: only the non-wetting phase is present (`Indices::nPhaseOnly`). -/
def nPhaseOnly : ℤ := 1

/-- Phase-state tag: both phases are present (`Indices::bothPhases`). -/
def bothPhases : ℤ := 2

/-- The choice of primary-variable formulation (`Indices::pWsN` / `Indices::pNsW`):
wetting pressure with non-wetting saturation, or the reverse. -/
inductive Formulation where
  | pWsN : Formulation
  | pNsW : Formulation
deriving DecidableEq, Repr

/-- Index of the pressure unknown inside a vertex's primary-variable vector
(`Indices::pressureIdx`). -/
def pressureIdx : Fin 2 := 0

/-- Index of the switch unknown (saturation or mass fraction) inside a vertex's
primary-variable vector (`Indices::switchIdx`). -/
def switchIdx : Fin 2 := 1

/-- A vertex's primary-variable vector (`PrimaryVarVector`): two scalar unknowns,
pressure and the switch variable.  A residual/storage/flux vector has the same
shape (`numEq = 2`). -/
def PrimaryVars : Type := Fin 2 → ℚ

/-- The secondary (derived) quantities attached to a vertex (`VertexData`):
per-phase pressure, saturation, density, mobility, the mass-fraction matrix
indexed component-then-phase, and the porosity. -/
structure VertexData where
  pressure : Fin 2 → ℚ
  saturation : Fin 2 → ℚ
  density : Fin 2 → ℚ
  mobility : Fin 2 → ℚ
  massfrac : Fin 2 → Fin 2 → ℚ
  porosity : ℚ

/-- The persistent per-vertex data (`StaticVertexData`): the current phase state,
the hysteresis flag, and the phase state of the last accepted time step. -/
structure StaticVertexData where
  phaseState : ℤ
  wasSwitched : Bool
  oldPhaseState : ℤ
deriving DecidableEq, Repr

/-- Model of `computeStorage`: the amount of each conserved component inside a
sub-control volume.  Selects the previous or current element data according to
`usePrevSol`, then accumulates `density * saturation * massfrac` over the two
phases into each component's mass-equation slot (`Indices::comp2Mass`) and
finally scales by the porosity.  The nested source loops are written as folds
over the phase and component index ranges. -/
def computeStorage (comp2Mass : Fin 2 → Fin 2)
    (prevElemDat curElemDat : ℕ → VertexData)
    (scvIdx : ℕ) (usePrevSol : Bool) : Fin 2 → ℚ :=
  let elemDat := if usePrevSol then prevElemDat else curElemDat
  let vertDat := elemDat scvIdx
  let result : Fin 2 → ℚ := fun _ => 0
  let result :=
    (List.finRange 2).foldl (fun r phaseIdx =>
      (List.finRange 2).foldl (fun r compIdx =>
        Function.update r (comp2Mass compIdx)
          (r (comp2Mass compIdx) +
            vertDat.density phaseIdx *
            vertDat.saturation phaseIdx *
            vertDat.massfrac compIdx phaseIdx)) r) result
  fun eqIdx => vertDat.porosity * result eqIdx

/-- The data attached to a sub-control-volume face (`FluxData`): per phase the
upstream and downstream vertex indices (determined by the sign of the phase's
Darcy velocity), the normal Darcy velocity, the porous-medium diffusion
coefficient, the density at the integration point and the concentration
gradient, together with the face's normal vector.  `dim` is the world
dimension of the grid. -/
structure FluxData (dim : ℕ) where
  upstreamIdx : Fin 2 → ℕ
  downstreamIdx : Fin 2 → ℕ
  vDarcyNormal : Fin 2 → ℚ
  diffCoeffPM : Fin 2 → ℚ
  densityAtIP : Fin 2 → ℚ
  concentrationGrad : Fin 2 → Fin dim → ℚ
  normal : Fin dim → ℚ

/-- Dot product of a gradient with the face normal
(`vars.concentrationGrad[phase] * vars.face->normal`). -/
def dotNormal {dim : ℕ} (grad normal : Fin dim → ℚ) : ℚ :=
  ∑ i, grad i * normal i

/-- Model of `computeAdvectiveFlux`: adds, for every phase and component, the advective
mass flux over a sub-control-volume face into the component's mass-equation
slot.  The upstream summand is only added when `mobilityUpwindAlpha > 0` and
the downstream summand only when `mobilityUpwindAlpha < 1`, exactly as the two
`if` statements in the source do. -/
def computeAdvectiveFlux {dim : ℕ} (comp2Mass : Fin 2 → Fin 2)
    (mobilityUpwindAlpha : ℚ) (curElemDat : ℕ → VertexData)
    (vars : FluxData dim) (flux : Fin 2 → ℚ) : Fin 2 → ℚ :=
  (List.finRange 2).foldl (fun flux phaseIdx =>
    let up := curElemDat (vars.upstreamIdx phaseIdx)
    let dn := curElemDat (vars.downstreamIdx phaseIdx)
    (List.finRange 2).foldl (fun flux compIdx =>
      let flux :=
        if 0 < mobilityUpwindAlpha then
          Function.update flux (comp2Mass compIdx)
            (flux (comp2Mass compIdx) +
              vars.vDarcyNormal phaseIdx * mobilityUpwindAlpha *
                (up.density phaseIdx * up.mobility phaseIdx *
                  up.massfrac compIdx phaseIdx))
        else flux
      if mobilityUpwindAlpha < 1 then
        Function.update flux (comp2Mass compIdx)
          (flux (comp2Mass compIdx) +
            vars.vDarcyNormal phaseIdx * (1 - mobilityUpwindAlpha) *
              (dn.density phaseIdx * dn.mobility phaseIdx *
                dn.massfrac compIdx phaseIdx))
      else flux) flux) flux

/-- Model of `computeDiffusiveFlux`: adds the two per-phase binary-diffusion scalars to
the flux vector; each scalar is added to one component's mass-equation slot
and subtracted from the other's. -/
def computeDiffusiveFlux {dim : ℕ} (comp2Mass : Fin 2 → Fin 2)
    (vars : FluxData dim) (flux : Fin 2 → ℚ) : Fin 2 → ℚ :=
  let tmp := vars.diffCoeffPM wPhase * vars.densityAtIP wPhase *
      dotNormal (vars.concentrationGrad wPhase) vars.normal
  let flux := Function.update flux (comp2Mass nComp) (flux (comp2Mass nComp) + tmp)
  let flux := Function.update flux (comp2Mass wComp) (flux (comp2Mass wComp) - tmp)
  let tmp := vars.diffCoeffPM nPhase * vars.densityAtIP nPhase *
      dotNormal (vars.concentrationGrad nPhase) vars.normal
  let flux := Function.update flux (comp2Mass wComp) (flux (comp2Mass wComp) + tmp)
  Function.update flux (comp2Mass nComp) (flux (comp2Mass nComp) - tmp)

/-- The solubility model (`problem.multicomp()`): maximum dissolved mass
fraction of the non-wetting component in the wetting phase (`xAW`) and of the
wetting component in the non-wetting phase (`xWN`), as functions of a phase
pressure and the temperature. -/
structure Multicomp where
  xAW : ℚ → ℚ → ℚ
  xWN : ℚ → ℚ → ℚ

/-- The external collaborators of the primary-variable switch: the solubility
model, the (solution-dependent) temperature, the evaluation of the secondary
vertex data from a vertex's primary variables, its phase state and the
temperature (the source's `updateSaturations` / `pC` / `updatePressures` /
`updateMassFracs` sequence, supplied by the external material and fluid
modules), and the configured formulation. -/
structure SwitchCtx where
  multicomp : Multicomp
  temperature : (Fin 2 → ℚ) → ℚ
  evalVertexData : (Fin 2 → ℚ) → ℤ → ℚ → VertexData
  formulation : Formulation

/-- Overwrite the switch-variable slot of vertex `g` in the global solution
(`(*globalSol)[globalIdx][switchIdx] = v`). -/
def writeSwitchVar (sol : ℕ → Fin 2 → ℚ) (g : ℕ) (v : ℚ) : ℕ → Fin 2 → ℚ :=
  Function.update sol g (Function.update (sol g) switchIdx v)

/-- Model of `primaryVarSwitch_`: evaluate the primary-variable switch at vertex
`globalIdx`.  Returns the updated global solution, the updated static vertex
data and the `phaseState != newPhaseState` return value.  The intermediate
triple `step` bundles the solution after the branch-local write, the new phase
state and the `wouldSwitch` flag. -/
def primaryVarSwitch (ctx : SwitchCtx) (globalSol : ℕ → Fin 2 → ℚ)
    (staticDat : ℕ → StaticVertexData) (globalIdx : ℕ) :
    (ℕ → Fin 2 → ℚ) × (ℕ → StaticVertexData) × Bool :=
  let phaseState := (staticDat globalIdx).phaseState
  let temperature := ctx.temperature (globalSol globalIdx)
  let vd := ctx.evalVertexData (globalSol globalIdx) phaseState temperature
  let step : (ℕ → Fin 2 → ℚ) × ℤ × Bool :=
    if phaseState = nPhaseOnly then
      let xWNmax := ctx.multicomp.xWN (vd.pressure nPhase) temperature
      let wouldSwitch := decide (xWNmax < vd.massfrac wComp nPhase)
      let xWNmax := if (staticDat globalIdx).wasSwitched
                    then xWNmax * (1 + 1/100) else xWNmax
      if xWNmax < vd.massfrac wComp nPhase then
        -- wetting phase appears
        (writeSwitchVar globalSol globalIdx
           (match ctx.formulation with
            | .pNsW => 0
            | .pWsN => 1),
         bothPhases, wouldSwitch)
      else (globalSol, phaseState, wouldSwitch)
    else if phaseState = wPhaseOnly then
      let xAWmax := ctx.multicomp.xAW (vd.pressure wPhase) temperature
      let wouldSwitch := decide (xAWmax < vd.massfrac nComp wPhase)
      let xAWmax := if (staticDat globalIdx).wasSwitched
                    then xAWmax * (1 + 1/100) else xAWmax
      if xAWmax < vd.massfrac nComp wPhase then
        -- non-wetting phase appears
        (writeSwitchVar globalSol globalIdx
           (match ctx.formulation with
            | .pNsW => 1
            | .pWsN => 0),
         bothPhases, wouldSwitch)
      else (globalSol, phaseState, wouldSwitch)
    else if phaseState = bothPhases then
      let Smin : ℚ := 0
      if vd.saturation nPhase ≤ Smin then
        -- non-wetting phase disappears
        (writeSwitchVar globalSol globalIdx
           (ctx.multicomp.xAW (vd.pressure nPhase) temperature),
         wPhaseOnly, true)
      else if vd.saturation wPhase ≤ Smin then
        -- wetting phase disappears
        (writeSwitchVar globalSol globalIdx
           (ctx.multicomp.xWN (vd.pressure nPhase) temperature),
         nPhaseOnly, true)
      else (globalSol, phaseState, false)
    else (globalSol, phaseState, false)
  (step.1,
   Function.update staticDat globalIdx
     { staticDat globalIdx with
         phaseState := step.2.1, wasSwitched := step.2.2 },
   decide (phaseState ≠ step.2.1))

/-- The secondary vertex data computed at the start of a switch evaluation of
vertex `g`. -/
def switchVD (ctx : SwitchCtx) (sol : ℕ → Fin 2 → ℚ)
    (dat : ℕ → StaticVertexData) (g : ℕ) : VertexData :=
  ctx.evalVertexData (sol g) ((dat g).phaseState) (ctx.temperature (sol g))

/-- The unscaled solubility limit `xWNmax` computed at the start of the
`nPhaseOnly` branch. -/
def xWNunscaled (ctx : SwitchCtx) (sol : ℕ → Fin 2 → ℚ)
    (dat : ℕ → StaticVertexData) (g : ℕ) : ℚ :=
  ctx.multicomp.xWN ((switchVD ctx sol dat g).pressure nPhase)
    (ctx.temperature (sol g))

/-- The unscaled solubility limit `xAWmax` computed at the start of the
`wPhaseOnly` branch. -/
def xAWunscaled (ctx : SwitchCtx) (sol : ℕ → Fin 2 → ℚ)
    (dat : ℕ → StaticVertexData) (g : ℕ) : ℚ :=
  ctx.multicomp.xAW ((switchVD ctx sol dat g).pressure wPhase)
    (ctx.temperature (sol g))

/-- The solubility threshold actually compared against in the `nPhaseOnly`
branch: `xWNmax`, scaled by `1.01` when the vertex switched on the previous
evaluation. -/
def xWNthreshold (ctx : SwitchCtx) (sol : ℕ → Fin 2 → ℚ)
    (dat : ℕ → StaticVertexData) (g : ℕ) : ℚ :=
  if (dat g).wasSwitched then xWNunscaled ctx sol dat g * (1 + 1/100)
  else xWNunscaled ctx sol dat g

/-- The solubility threshold actually compared against in the `wPhaseOnly`
branch: `xAWmax`, scaled by `1.01` when the vertex switched on the previous
evaluation. -/
def xAWthreshold (ctx : SwitchCtx) (sol : ℕ → Fin 2 → ℚ)
    (dat : ℕ → StaticVertexData) (g : ℕ) : ℚ :=
  if (dat g).wasSwitched then xAWunscaled ctx sol dat g * (1 + 1/100)
  else xAWunscaled ctx sol dat g

/-- The guard of the `nPhaseOnly → bothPhases` transition (wetting phase
appears). -/
def firesNtoB (ctx : SwitchCtx) (sol : ℕ → Fin 2 → ℚ)
    (dat : ℕ → StaticVertexData) (g : ℕ) : Prop :=
  (dat g).phaseState = nPhaseOnly ∧
    xWNthreshold ctx sol dat g < (switchVD ctx sol dat g).massfrac wComp nPhase

/-- The guard of the `wPhaseOnly → bothPhases` transition (non-wetting phase
appears). -/
def firesWtoB (ctx : SwitchCtx) (sol : ℕ → Fin 2 → ℚ)
    (dat : ℕ → StaticVertexData) (g : ℕ) : Prop :=
  (dat g).phaseState = wPhaseOnly ∧
    xAWthreshold ctx sol dat g < (switchVD ctx sol dat g).massfrac nComp wPhase

/-- The guard of the `bothPhases → wPhaseOnly` transition (non-wetting phase
disappears). -/
def firesBtoW (ctx : SwitchCtx) (sol : ℕ → Fin 2 → ℚ)
    (dat : ℕ → StaticVertexData) (g : ℕ) : Prop :=
  (dat g).phaseState = bothPhases ∧
    (switchVD ctx sol dat g).saturation nPhase ≤ 0

/-- The guard of the `bothPhases → nPhaseOnly` transition (wetting phase
disappears); by the `else if` in the source it presupposes that the
non-wetting-phase guard did not hold. -/
def firesBtoN (ctx : SwitchCtx) (sol : ℕ → Fin 2 → ℚ)
    (dat : ℕ → StaticVertexData) (g : ℕ) : Prop :=
  (dat g).phaseState = bothPhases ∧
    ¬ (switchVD ctx sol dat g).saturation nPhase ≤ 0 ∧
    (switchVD ctx sol dat g).saturation wPhase ≤ 0

/-- A zero secondary-state record, used to instantiate theorems at concrete
inputs. -/
def zeroVD : VertexData :=
  ⟨fun _ => 0, fun _ => 0, fun _ => 0, fun _ => 0, fun _ _ => 0, 0⟩

/-- A sample secondary-state record with non-trivial entries, used to
instantiate theorems at concrete inputs. -/
def sampleVD : VertexData :=
  ⟨fun _ => 1, fun _ => 1, fun _ => 2, fun _ => 1, fun _ _ => 3, 5⟩

/-- A sample face-data record in dimension 2, used to instantiate theorems at
concrete inputs. -/
def sampleFD : FluxData 2 :=
  ⟨fun _ => 0, fun _ => 1, fun _ => 2, fun _ => 3, fun _ => 5,
   fun _ _ => 7, fun _ => 1⟩

/-- A sample global solution, used to instantiate theorems at concrete
inputs. -/
def sampleSol : ℕ → Fin 2 → ℚ := fun _ _ => 1

/-- A sample static-vertex-data store with every vertex in `bothPhases`, used
to instantiate theorems at concrete inputs. -/
def sampleDatB : ℕ → StaticVertexData := fun _ => ⟨bothPhases, false, bothPhases⟩

/-- A sample switch context whose secondary data is `sampleVD` everywhere,
used to instantiate theorems at concrete inputs. -/
def sampleCtx : SwitchCtx :=
  ⟨⟨fun _ _ => 1/100, fun _ _ => 1/100⟩, fun _ => 300, fun _ _ _ => sampleVD,
   .pWsN⟩

/-- Secondary data of the end-to-end scenario while in `wPhaseOnly`: the
dissolved non-wetting mass fraction is `0.012`. -/
def c6vdW : VertexData :=
  ⟨fun _ => 1, fun _ => 1, fun _ => 1, fun _ => 1, fun _ _ => 12/1000, 1⟩

/-- Secondary data of the end-to-end scenario after the switch to
`bothPhases`: the non-wetting saturation is `0.0`. -/
def c6vdB : VertexData :=
  ⟨fun _ => 1, fun _ => 0, fun _ => 1, fun _ => 1, fun _ _ => 1, 1⟩

/-- Switch context of the end-to-end scenario: solubility limit `0.01`
everywhere, secondary data selected by the phase state. -/
def c6Ctx : SwitchCtx :=
  ⟨⟨fun _ _ => 1/100, fun _ _ => 1/100⟩, fun _ => 300,
   fun _ ps _ => if ps = wPhaseOnly then c6vdW else c6vdB, .pWsN⟩

/-- Static vertex data of the end-to-end scenario: every vertex in
`wPhaseOnly` with a clear hysteresis flag. -/
def c6Dat : ℕ → StaticVertexData := fun _ => ⟨wPhaseOnly, false, wPhaseOnly⟩

/-- Model of `resetPhaseState`: reset the current phase state of all vertices
to the old one, after a failed update.  The source loop over
`0 ≤ i < numVertices` on the `numVertices`-sized vector is a map over the
store. -/
def resetPhaseState (staticVertexDat : List StaticVertexData) :
    List StaticVertexData :=
  staticVertexDat.map (fun d => { d with phaseState := d.oldPhaseState })

/-- An input checkpoint stream (`std::istream`): its `good` flag and an
unbounded tape of integers with a read position.  A formatted read returns the
integer at the position and advances the position. -/
structure InStream where
  good : Bool
  data : ℕ → ℤ
  pos : ℕ

/-- An output checkpoint stream (`std::ostream`): its `good` flag and the
sequence of integers written so far. -/
structure OutStream where
  good : Bool
  written : List ℤ

/-- The `Dune::IOError` thrown by the (de)serialization routines, carrying the
index of the vertex that could not be processed. -/
inductive SerError where
  | ioError (vertIdx : ℕ) : SerError
deriving DecidableEq, Repr

/-- Model of `deserializeEntity`: if the stream is not good, throw an
`IOError` naming the vertex and leave everything untouched; otherwise read one
integer phase state and store it as the vertex's current and old phase
state. -/
def deserializeEntity (inStream : InStream) (dat : ℕ → StaticVertexData)
    (vertIdx : ℕ) : Option SerError × InStream × (ℕ → StaticVertexData) :=
  if ¬ inStream.good then (some (.ioError vertIdx), inStream, dat)
  else
    let x := inStream.data inStream.pos
    (none, { inStream with pos := inStream.pos + 1 },
     Function.update dat vertIdx
       { dat vertIdx with phaseState := x, oldPhaseState := x })

/-- Model of `serializeEntity`: if the stream is not good, throw an `IOError`
naming the vertex and leave the stream untouched; otherwise write the vertex's
phase state as one integer. -/
def serializeEntity (outStream : OutStream) (dat : ℕ → StaticVertexData)
    (vertIdx : ℕ) : Option SerError × OutStream :=
  if ¬ outStream.good then (some (.ioError vertIdx), outStream)
  else
    (none,
     { outStream with
         written := outStream.written ++ [(dat vertIdx).phaseState] })

/-- One partition of the distributed mesh: its copy of the global solution,
its static vertex data, and the global indices of the vertices it visits. -/
structure Partition where
  sol : ℕ → Fin 2 → ℚ
  dat : ℕ → StaticVertexData
  verts : List ℕ

/-- The vertex loop of `updateStaticData` on one partition: evaluate the
switch at every vertex in turn, accumulating
`wasSwitched = primaryVarSwitch_(...) || wasSwitched`. -/
def updateStaticDataSweep (ctx : SwitchCtx) (sol : ℕ → Fin 2 → ℚ)
    (dat : ℕ → StaticVertexData) (acc : Bool) :
    List ℕ → (ℕ → Fin 2 → ℚ) × (ℕ → StaticVertexData) × Bool
  | [] => (sol, dat, acc)
  | v :: vs =>
    let r := primaryVarSwitch ctx sol dat v
    updateStaticDataSweep ctx r.1 r.2.1 (r.2.2 || acc) vs

/-- The per-vertex return values of the vertex loop, in evaluation order. -/
def sweepOutcomes (ctx : SwitchCtx) (sol : ℕ → Fin 2 → ℚ)
    (dat : ℕ → StaticVertexData) : List ℕ → List Bool
  | [] => []
  | v :: vs =>
    let r := primaryVarSwitch ctx sol dat v
    r.2.2 :: sweepOutcomes ctx r.1 r.2.1 vs

/-- The cross-partition reduction `gridView_.comm().max(...)` on the
partitions' boolean flags: the maximum of booleans (`false < true`), i.e.
their logical OR. -/
def commMax (xs : List Bool) : Bool :=
  xs.foldl (fun a b => max a b) false

/-- Model of `updateStaticData`, run over all cooperating partitions: each
partition sweeps its own vertices, the local flags are reduced with the
cross-partition `max`, and the reduced value is stored as every partition's
switch flag (`setSwitched`); the list of the stored flags is returned. -/
def updateStaticData (ctx : SwitchCtx) (parts : List Partition) : List Bool :=
  let locals := parts.map
    (fun p => (updateStaticDataSweep ctx p.sol p.dat false p.verts).2.2)
  let reduced := commMax locals
  parts.map (fun _ => reduced)

/-- Secondary data of the hysteresis scenario: the dissolved mass fraction
sits exactly at the unscaled solubility limit `0.01`. -/
def c5vd : VertexData :=
  ⟨fun _ => 1, fun _ => 1, fun _ => 1, fun _ => 1, fun _ _ => 1/100, 1⟩

/-- Switch context of the hysteresis scenario: solubility limit `0.01`
everywhere, secondary data `c5vd` everywhere. -/
def c5Ctx : SwitchCtx :=
  ⟨⟨fun _ _ => 1/100, fun _ _ => 1/100⟩, fun _ => 300, fun _ _ _ => c5vd,
   .pWsN⟩

/-- Static vertex data of the hysteresis scenario: every vertex in
`wPhaseOnly` with the hysteresis flag set. -/
def c5Dat : ℕ → StaticVertexData := fun _ => ⟨wPhaseOnly, true, wPhaseOnly⟩

/-- A sample in-stream: good, position 0, its tape holding the integer `i+3`
at position `i`. -/
def sampleIn : InStream := ⟨true, fun i => (i : ℤ) + 3, 0⟩

/-- A sample out-stream: good, nothing written yet. -/
def sampleOut : OutStream := ⟨true, []⟩

end TwoPTwoC

namespace TwoPTwoC

/-- C1: for every sub-control-volume index and for both values of the
`usePrevSol` flag, `computeStorage` returns, in each component's mass-equation
slot, the porosity times the sum over the two phases of
`density * saturation * massfrac` taken from the selected vertex data; being a
pure function of its inputs it has no side effects on any state. -/
theorem computeStorage_spec (comp2Mass : Fin 2 → Fin 2)
    (hinj : Function.Injective comp2Mass)
    (prevElemDat curElemDat : ℕ → VertexData)
    (scvIdx : ℕ) (usePrevSol : Bool) (compIdx : Fin 2) :
    computeStorage comp2Mass prevElemDat curElemDat scvIdx usePrevSol
      (comp2Mass compIdx) =
    (let vertDat := (if usePrevSol then prevElemDat else curElemDat) scvIdx
     vertDat.porosity *
       ∑ phaseIdx : Fin 2,
         vertDat.density phaseIdx * vertDat.saturation phaseIdx *
           vertDat.massfrac compIdx phaseIdx) := by
  have hne : comp2Mass 0 ≠ comp2Mass 1 := fun h => absurd (hinj h) (by decide)
  fin_cases compIdx <;>
    simp [computeStorage, List.finRange, Function.update_apply, hne, hne.symm,
      Fin.sum_univ_two]

/-- Witness for C1 at a concrete input. -/
theorem computeStorage_spec_witness :
    computeStorage id (fun _ => zeroVD) (fun _ => sampleVD) 0 false (id wComp) =
    (let vertDat := (if false then (fun _ => zeroVD) else (fun _ => sampleVD)) 0
     vertDat.porosity *
       ∑ phaseIdx : Fin 2,
         vertDat.density phaseIdx * vertDat.saturation phaseIdx *
           vertDat.massfrac wComp phaseIdx) := by
  exact computeStorage_spec id (fun _ _ h => h) _ _ 0 false wComp

/-- C2: for every face and every upwind weight `alpha ∈ [0,1]`, the advective
flux added by `computeAdvectiveFlux` to each component's mass-equation slot
equals the sum over the two phases of
`vDarcyNormal * (alpha * upstream density*mobility*massfrac
+ (1-alpha) * downstream density*mobility*massfrac)`; with `alpha = 1` this is
the pure-upstream formula, with `alpha = 0` the pure-downstream formula, and
for intermediate `alpha` the exact linear interpolation of the two. -/
theorem computeAdvectiveFlux_spec {dim : ℕ} (comp2Mass : Fin 2 → Fin 2)
    (hinj : Function.Injective comp2Mass)
    (alpha : ℚ) (h0 : 0 ≤ alpha) (h1 : alpha ≤ 1)
    (curElemDat : ℕ → VertexData) (vars : FluxData dim)
    (flux : Fin 2 → ℚ) (compIdx : Fin 2) :
    computeAdvectiveFlux comp2Mass alpha curElemDat vars flux
      (comp2Mass compIdx) =
    flux (comp2Mass compIdx) +
      ∑ phaseIdx : Fin 2,
        vars.vDarcyNormal phaseIdx *
          (alpha *
            ((curElemDat (vars.upstreamIdx phaseIdx)).density phaseIdx *
             (curElemDat (vars.upstreamIdx phaseIdx)).mobility phaseIdx *
             (curElemDat (vars.upstreamIdx phaseIdx)).massfrac compIdx phaseIdx) +
          (1 - alpha) *
            ((curElemDat (vars.downstreamIdx phaseIdx)).density phaseIdx *
             (curElemDat (vars.downstreamIdx phaseIdx)).mobility phaseIdx *
             (curElemDat (vars.downstreamIdx phaseIdx)).massfrac compIdx
               phaseIdx)) := by
  have hne : comp2Mass 0 ≠ comp2Mass 1 := fun h => absurd (hinj h) (by decide)
  rcases h0.lt_or_eq with ha | ha
  · rcases h1.lt_or_eq with hb | hb
    · fin_cases compIdx <;>
        simp [computeAdvectiveFlux, List.finRange, Function.update_apply,
          hne, hne.symm, ha, hb, Fin.sum_univ_two] <;> ring
    · subst hb
      fin_cases compIdx <;>
        simp [computeAdvectiveFlux, List.finRange, Function.update_apply,
          hne, hne.symm, Fin.sum_univ_two] <;> ring
  · subst ha
    fin_cases compIdx <;>
      simp [computeAdvectiveFlux, List.finRange, Function.update_apply,
        hne, hne.symm, Fin.sum_univ_two] <;> ring

/-- Witness for C2 at a concrete input with `alpha = 1/2`. -/
theorem computeAdvectiveFlux_spec_witness :
    computeAdvectiveFlux id (1/2) (fun _ => sampleVD) sampleFD (fun _ => 0)
      (id wComp) =
    (fun _ => (0 : ℚ)) (id wComp) +
      ∑ phaseIdx : Fin 2,
        sampleFD.vDarcyNormal phaseIdx *
          ((1/2) *
            (((fun _ => sampleVD) (sampleFD.upstreamIdx phaseIdx)).density phaseIdx *
             ((fun _ => sampleVD) (sampleFD.upstreamIdx phaseIdx)).mobility phaseIdx *
             ((fun _ => sampleVD) (sampleFD.upstreamIdx phaseIdx)).massfrac wComp phaseIdx) +
          (1 - 1/2) *
            (((fun _ => sampleVD) (sampleFD.downstreamIdx phaseIdx)).density phaseIdx *
             ((fun _ => sampleVD) (sampleFD.downstreamIdx phaseIdx)).mobility phaseIdx *
             ((fun _ => sampleVD) (sampleFD.downstreamIdx phaseIdx)).massfrac wComp
               phaseIdx)) := by
  exact computeAdvectiveFlux_spec id (fun _ _ h => h) (1/2) (by norm_num)
    (by norm_num) _ _ _ wComp

/-- C3: the total diffusive contribution of `computeDiffusiveFlux` to the
wetting component's mass equation is exactly the negative of its total
contribution to the non-wetting component's mass equation: each per-phase
diffusive scalar is added to one component's slot and subtracted from the
other's. -/
theorem computeDiffusiveFlux_antisymm {dim : ℕ} (comp2Mass : Fin 2 → Fin 2)
    (hinj : Function.Injective comp2Mass)
    (vars : FluxData dim) (flux : Fin 2 → ℚ) :
    computeDiffusiveFlux comp2Mass vars flux (comp2Mass wComp) -
      flux (comp2Mass wComp) =
    -(computeDiffusiveFlux comp2Mass vars flux (comp2Mass nComp) -
      flux (comp2Mass nComp)) := by
  have hne : comp2Mass 0 ≠ comp2Mass 1 := fun h => absurd (hinj h) (by decide)
  simp [computeDiffusiveFlux, Function.update_apply, wComp, nComp,
    hne, hne.symm]
  ring

/-- Witness for C3 at a concrete input. -/
theorem computeDiffusiveFlux_antisymm_witness :
    computeDiffusiveFlux id sampleFD (fun _ => 0) (id wComp) -
      (fun _ => (0 : ℚ)) (id wComp) =
    -(computeDiffusiveFlux id sampleFD (fun _ => 0) (id nComp) -
      (fun _ => (0 : ℚ)) (id nComp)) := by
  exact computeDiffusiveFlux_antisymm id (fun _ _ h => h) sampleFD (fun _ => 0)

/-- Characterization of a switch evaluation at a vertex in `nPhaseOnly`. -/
lemma primaryVarSwitch_nPhaseOnly (ctx : SwitchCtx) (sol : ℕ → Fin 2 → ℚ)
    (dat : ℕ → StaticVertexData) (g : ℕ)
    (h : (dat g).phaseState = nPhaseOnly) :
    primaryVarSwitch ctx sol dat g =
      if xWNthreshold ctx sol dat g <
          (switchVD ctx sol dat g).massfrac wComp nPhase then
        (writeSwitchVar sol g
           (match ctx.formulation with | .pNsW => 0 | .pWsN => 1),
         Function.update dat g
           { dat g with
               phaseState := bothPhases
               wasSwitched := decide (xWNunscaled ctx sol dat g <
                 (switchVD ctx sol dat g).massfrac wComp nPhase) },
         true)
      else
        (sol,
         Function.update dat g
           { dat g with
               phaseState := (dat g).phaseState
               wasSwitched := decide (xWNunscaled ctx sol dat g <
                 (switchVD ctx sol dat g).massfrac wComp nPhase) },
         false) := by
  simp [primaryVarSwitch, h, switchVD, xWNthreshold, xWNunscaled,
    nPhaseOnly, bothPhases, wPhaseOnly]
  split_ifs <;> simp

/-- Characterization of a switch evaluation at a vertex in `wPhaseOnly`. -/
lemma primaryVarSwitch_wPhaseOnly (ctx : SwitchCtx) (sol : ℕ → Fin 2 → ℚ)
    (dat : ℕ → StaticVertexData) (g : ℕ)
    (h : (dat g).phaseState = wPhaseOnly) :
    primaryVarSwitch ctx sol dat g =
      if xAWthreshold ctx sol dat g <
          (switchVD ctx sol dat g).massfrac nComp wPhase then
        (writeSwitchVar sol g
           (match ctx.formulation with | .pNsW => 1 | .pWsN => 0),
         Function.update dat g
           { dat g with
               phaseState := bothPhases
               wasSwitched := decide (xAWunscaled ctx sol dat g <
                 (switchVD ctx sol dat g).massfrac nComp wPhase) },
         true)
      else
        (sol,
         Function.update dat g
           { dat g with
               phaseState := (dat g).phaseState
               wasSwitched := decide (xAWunscaled ctx sol dat g <
                 (switchVD ctx sol dat g).massfrac nComp wPhase) },
         false) := by
  simp [primaryVarSwitch, h, switchVD, xAWthreshold, xAWunscaled,
    nPhaseOnly, bothPhases, wPhaseOnly]
  split_ifs <;> simp

/-- Characterization of a switch evaluation at a vertex in `bothPhases`. -/
lemma primaryVarSwitch_bothPhases (ctx : SwitchCtx) (sol : ℕ → Fin 2 → ℚ)
    (dat : ℕ → StaticVertexData) (g : ℕ)
    (h : (dat g).phaseState = bothPhases) :
    primaryVarSwitch ctx sol dat g =
      if (switchVD ctx sol dat g).saturation nPhase ≤ 0 then
        (writeSwitchVar sol g
           (ctx.multicomp.xAW ((switchVD ctx sol dat g).pressure nPhase)
             (ctx.temperature (sol g))),
         Function.update dat g
           { dat g with
               phaseState := wPhaseOnly
               wasSwitched := true },
         true)
      else if (switchVD ctx sol dat g).saturation wPhase ≤ 0 then
        (writeSwitchVar sol g
           (ctx.multicomp.xWN ((switchVD ctx sol dat g).pressure nPhase)
             (ctx.temperature (sol g))),
         Function.update dat g
           { dat g with
               phaseState := nPhaseOnly
               wasSwitched := true },
         true)
      else
        (sol,
         Function.update dat g
           { dat g with
               phaseState := (dat g).phaseState
               wasSwitched := false },
         false) := by
  simp [primaryVarSwitch, h, switchVD, nPhaseOnly, bothPhases, wPhaseOnly]
  split_ifs <;> simp

/-- Characterization of a switch evaluation at a vertex whose phase-state tag
is none of the three enumerated values: nothing happens except the
unconditional rewrite of `phaseState` (with its own value) and `wasSwitched`
(with `false`). -/
lemma primaryVarSwitch_otherState (ctx : SwitchCtx) (sol : ℕ → Fin 2 → ℚ)
    (dat : ℕ → StaticVertexData) (g : ℕ)
    (h1 : (dat g).phaseState ≠ nPhaseOnly)
    (h2 : (dat g).phaseState ≠ wPhaseOnly)
    (h3 : (dat g).phaseState ≠ bothPhases) :
    primaryVarSwitch ctx sol dat g =
      (sol,
       Function.update dat g
         { dat g with
             phaseState := (dat g).phaseState
             wasSwitched := false },
       false) := by
  simp [primaryVarSwitch, h1, h2, h3]

/-- C4: a vertex that crosses no switch threshold (mass fraction not above the
applicable—possibly hysteresis-scaled—solubility limit in a single-phase
state; both saturations positive in `bothPhases`) keeps its phase state
unchanged and the evaluation returns `false`; moreover the four transition
guards are pairwise exclusive (at most one transition fires per call), and the
evaluation reports a switch exactly when one of them fires. -/
theorem primaryVarSwitch_noThreshold_spec (ctx : SwitchCtx)
    (sol : ℕ → Fin 2 → ℚ) (dat : ℕ → StaticVertexData) (g : ℕ) :
    ((((dat g).phaseState = nPhaseOnly →
        (switchVD ctx sol dat g).massfrac wComp nPhase ≤
          xWNthreshold ctx sol dat g) ∧
      ((dat g).phaseState = wPhaseOnly →
        (switchVD ctx sol dat g).massfrac nComp wPhase ≤
          xAWthreshold ctx sol dat g) ∧
      ((dat g).phaseState = bothPhases →
        0 < (switchVD ctx sol dat g).saturation nPhase ∧
        0 < (switchVD ctx sol dat g).saturation wPhase)) →
      (primaryVarSwitch ctx sol dat g).2.2 = false ∧
      (((primaryVarSwitch ctx sol dat g).2.1) g).phaseState =
        (dat g).phaseState) ∧
    (¬ (firesNtoB ctx sol dat g ∧ firesWtoB ctx sol dat g) ∧
     ¬ (firesNtoB ctx sol dat g ∧ firesBtoW ctx sol dat g) ∧
     ¬ (firesNtoB ctx sol dat g ∧ firesBtoN ctx sol dat g) ∧
     ¬ (firesWtoB ctx sol dat g ∧ firesBtoW ctx sol dat g) ∧
     ¬ (firesWtoB ctx sol dat g ∧ firesBtoN ctx sol dat g) ∧
     ¬ (firesBtoW ctx sol dat g ∧ firesBtoN ctx sol dat g)) ∧
    ((primaryVarSwitch ctx sol dat g).2.2 = true ↔
      (firesNtoB ctx sol dat g ∨ firesWtoB ctx sol dat g ∨
       firesBtoW ctx sol dat g ∨ firesBtoN ctx sol dat g)) := by
  refine ⟨?_, ⟨?_, ?_, ?_, ?_, ?_, ?_⟩, ?_⟩
  · rintro ⟨hn, hw, hb⟩
    by_cases h1 : (dat g).phaseState = nPhaseOnly
    · rw [primaryVarSwitch_nPhaseOnly ctx sol dat g h1,
        if_neg (not_lt.mpr (hn h1))]
      simp
    · by_cases h2 : (dat g).phaseState = wPhaseOnly
      · rw [primaryVarSwitch_wPhaseOnly ctx sol dat g h2,
          if_neg (not_lt.mpr (hw h2))]
        simp
      · by_cases h3 : (dat g).phaseState = bothPhases
        · rw [primaryVarSwitch_bothPhases ctx sol dat g h3,
            if_neg (not_le.mpr (hb h3).1), if_neg (not_le.mpr (hb h3).2)]
          simp
        · rw [primaryVarSwitch_otherState ctx sol dat g h1 h2 h3]
          simp
  · rintro ⟨⟨h1, _⟩, ⟨h2, _⟩⟩
    exact absurd (h1.symm.trans h2) (by decide)
  · rintro ⟨⟨h1, _⟩, ⟨h2, _⟩⟩
    exact absurd (h1.symm.trans h2) (by decide)
  · rintro ⟨⟨h1, _⟩, ⟨h2, _⟩⟩
    exact absurd (h1.symm.trans h2) (by decide)
  · rintro ⟨⟨h1, _⟩, ⟨h2, _⟩⟩
    exact absurd (h1.symm.trans h2) (by decide)
  · rintro ⟨⟨h1, _⟩, ⟨h2, _⟩⟩
    exact absurd (h1.symm.trans h2) (by decide)
  · rintro ⟨⟨_, hs⟩, ⟨_, hns, _⟩⟩
    exact hns hs
  · by_cases h1 : (dat g).phaseState = nPhaseOnly
    · rw [primaryVarSwitch_nPhaseOnly ctx sol dat g h1]
      by_cases hc : xWNthreshold ctx sol dat g <
          (switchVD ctx sol dat g).massfrac wComp nPhase
      · simp only [if_pos hc]
        simp [firesNtoB, firesWtoB, firesBtoW, firesBtoN, h1, hc,
          nPhaseOnly, wPhaseOnly, bothPhases]
      · simp only [if_neg hc]
        simp [firesNtoB, firesWtoB, firesBtoW, firesBtoN, h1, hc,
          nPhaseOnly, wPhaseOnly, bothPhases]
    · by_cases h2 : (dat g).phaseState = wPhaseOnly
      · rw [primaryVarSwitch_wPhaseOnly ctx sol dat g h2]
        by_cases hc : xAWthreshold ctx sol dat g <
            (switchVD ctx sol dat g).massfrac nComp wPhase
        · simp only [if_pos hc]
          simp [firesNtoB, firesWtoB, firesBtoW, firesBtoN, h2, hc,
            nPhaseOnly, wPhaseOnly, bothPhases]
        · simp only [if_neg hc]
          simp [firesNtoB, firesWtoB, firesBtoW, firesBtoN, h2, hc,
            nPhaseOnly, wPhaseOnly, bothPhases]
      · by_cases h3 : (dat g).phaseState = bothPhases
        · rw [primaryVarSwitch_bothPhases ctx sol dat g h3]
          by_cases hc : (switchVD ctx sol dat g).saturation nPhase ≤ 0
          · simp only [if_pos hc]
            simp [firesNtoB, firesWtoB, firesBtoW, firesBtoN, h3, hc,
              nPhaseOnly, wPhaseOnly, bothPhases]
          · simp only [if_neg hc]
            by_cases hd : (switchVD ctx sol dat g).saturation wPhase ≤ 0
            · simp only [if_pos hd]
              simp [firesNtoB, firesWtoB, firesBtoW, firesBtoN, h3, hc, hd,
                nPhaseOnly, wPhaseOnly, bothPhases]
            · simp only [if_neg hd]
              simp [firesNtoB, firesWtoB, firesBtoW, firesBtoN, h3, hc, hd,
                nPhaseOnly, wPhaseOnly, bothPhases]
        · rw [primaryVarSwitch_otherState ctx sol dat g h1 h2 h3]
          simp [firesNtoB, firesWtoB, firesBtoW, firesBtoN, h1, h2, h3]

/-- Witness for C4 at a concrete input: every vertex of `sampleDatB` is in
`bothPhases` with both sample saturations positive, so the evaluation keeps
the phase state and returns `false`. -/
theorem primaryVarSwitch_noThreshold_spec_witness :
    (primaryVarSwitch sampleCtx sampleSol sampleDatB 0).2.2 = false ∧
    (((primaryVarSwitch sampleCtx sampleSol sampleDatB 0).2.1) 0).phaseState =
      (sampleDatB 0).phaseState :=
  (primaryVarSwitch_noThreshold_spec sampleCtx sampleSol sampleDatB 0).1
    ⟨fun h => absurd h (by decide), fun h => absurd h (by decide),
     fun _ => ⟨by decide, by decide⟩⟩

/-- C5: hysteresis stability — a single-phase vertex that switched on the
previous evaluation (`wasSwitched = true`) whose dissolved mass fraction is at
or above the unscaled solubility limit but not above `1.01` times that limit
performs no phase-state transition on the next evaluation; and on every
single-phase evaluation the `wasSwitched` flag is overwritten with the outcome
of the unscaled-threshold test, independent of whether the scaled threshold
fired. -/
theorem primaryVarSwitch_hysteresis_spec (ctx : SwitchCtx)
    (sol : ℕ → Fin 2 → ℚ) (dat : ℕ → StaticVertexData) (g : ℕ) :
    ((dat g).wasSwitched = true →
      (((dat g).phaseState = wPhaseOnly →
        xAWunscaled ctx sol dat g ≤
          (switchVD ctx sol dat g).massfrac nComp wPhase →
        (switchVD ctx sol dat g).massfrac nComp wPhase ≤
          xAWunscaled ctx sol dat g * (1 + 1/100) →
        (primaryVarSwitch ctx sol dat g).2.2 = false ∧
        (((primaryVarSwitch ctx sol dat g).2.1) g).phaseState =
          (dat g).phaseState) ∧
      ((dat g).phaseState = nPhaseOnly →
        xWNunscaled ctx sol dat g ≤
          (switchVD ctx sol dat g).massfrac wComp nPhase →
        (switchVD ctx sol dat g).massfrac wComp nPhase ≤
          xWNunscaled ctx sol dat g * (1 + 1/100) →
        (primaryVarSwitch ctx sol dat g).2.2 = false ∧
        (((primaryVarSwitch ctx sol dat g).2.1) g).phaseState =
          (dat g).phaseState))) ∧
    ((dat g).phaseState = wPhaseOnly →
      (((primaryVarSwitch ctx sol dat g).2.1) g).wasSwitched =
        decide (xAWunscaled ctx sol dat g <
          (switchVD ctx sol dat g).massfrac nComp wPhase)) ∧
    ((dat g).phaseState = nPhaseOnly →
      (((primaryVarSwitch ctx sol dat g).2.1) g).wasSwitched =
        decide (xWNunscaled ctx sol dat g <
          (switchVD ctx sol dat g).massfrac wComp nPhase)) := by
  refine ⟨?_, ?_, ?_⟩
  · intro hws
    constructor
    · intro hps hlo hhi
      rw [primaryVarSwitch_wPhaseOnly ctx sol dat g hps,
        if_neg (not_lt.mpr (by rw [xAWthreshold, if_pos hws]; exact hhi))]
      simp
    · intro hps hlo hhi
      rw [primaryVarSwitch_nPhaseOnly ctx sol dat g hps,
        if_neg (not_lt.mpr (by rw [xWNthreshold, if_pos hws]; exact hhi))]
      simp
  · intro hps
    rw [primaryVarSwitch_wPhaseOnly ctx sol dat g hps]
    split_ifs <;> simp
  · intro hps
    rw [primaryVarSwitch_nPhaseOnly ctx sol dat g hps]
    split_ifs <;> simp

/-- Witness for C5 at a concrete input: a `wPhaseOnly` vertex with
`wasSwitched = true` and mass fraction exactly at the unscaled limit. -/
theorem primaryVarSwitch_hysteresis_spec_witness :
    ((primaryVarSwitch c5Ctx sampleSol c5Dat 0).2.2 = false ∧
     (((primaryVarSwitch c5Ctx sampleSol c5Dat 0).2.1) 0).phaseState =
       (c5Dat 0).phaseState) ∧
    (((primaryVarSwitch c5Ctx sampleSol c5Dat 0).2.1) 0).wasSwitched =
      decide (xAWunscaled c5Ctx sampleSol c5Dat 0 <
        (switchVD c5Ctx sampleSol c5Dat 0).massfrac nComp wPhase) :=
  ⟨((primaryVarSwitch_hysteresis_spec c5Ctx sampleSol c5Dat 0).1 (by decide)).1
      (by decide)
      (by norm_num [xAWunscaled, switchVD, c5Ctx, c5vd])
      (by norm_num [xAWunscaled, switchVD, c5Ctx, c5vd]),
   (primaryVarSwitch_hysteresis_spec c5Ctx sampleSol c5Dat 0).2.1 (by decide)⟩

/-- C6: end-to-end example — a `wPhaseOnly` vertex with dissolved non-wetting
mass fraction `0.012`, solubility limit `xAWmax = 0.01` and
`wasSwitched = false` transitions to `bothPhases`; a subsequent evaluation of
the same vertex whose non-wetting saturation is `0.0` transitions it back to
`wPhaseOnly` with the switch-variable slot set to the solubility limit `xAW`
evaluated at the then-current (non-wetting phase) pressure and temperature. -/
theorem primaryVarSwitch_endToEnd_spec (ctx : SwitchCtx)
    (sol : ℕ → Fin 2 → ℚ) (dat : ℕ → StaticVertexData) (g : ℕ)
    (hps : (dat g).phaseState = wPhaseOnly)
    (hws : (dat g).wasSwitched = false)
    (hmf : (switchVD ctx sol dat g).massfrac nComp wPhase = 12/1000)
    (hxmax : xAWunscaled ctx sol dat g = 1/100)
    (hsn : (switchVD ctx (primaryVarSwitch ctx sol dat g).1
        ((primaryVarSwitch ctx sol dat g).2.1) g).saturation nPhase = 0) :
    (primaryVarSwitch ctx sol dat g).2.2 = true ∧
    (((primaryVarSwitch ctx sol dat g).2.1) g).phaseState = bothPhases ∧
    (primaryVarSwitch ctx (primaryVarSwitch ctx sol dat g).1
      ((primaryVarSwitch ctx sol dat g).2.1) g).2.2 = true ∧
    ((primaryVarSwitch ctx (primaryVarSwitch ctx sol dat g).1
      ((primaryVarSwitch ctx sol dat g).2.1) g).2.1 g).phaseState =
        wPhaseOnly ∧
    (primaryVarSwitch ctx (primaryVarSwitch ctx sol dat g).1
      ((primaryVarSwitch ctx sol dat g).2.1) g).1 g switchIdx =
      ctx.multicomp.xAW
        ((switchVD ctx (primaryVarSwitch ctx sol dat g).1
          ((primaryVarSwitch ctx sol dat g).2.1) g).pressure nPhase)
        (ctx.temperature ((primaryVarSwitch ctx sol dat g).1 g)) := by
  have hcond : xAWthreshold ctx sol dat g <
      (switchVD ctx sol dat g).massfrac nComp wPhase := by
    rw [xAWthreshold, if_neg (by simp [hws]), hxmax, hmf]; norm_num
  have h1 := primaryVarSwitch_wPhaseOnly ctx sol dat g hps
  rw [if_pos hcond] at h1
  have hps2 : (((primaryVarSwitch ctx sol dat g).2.1) g).phaseState =
      bothPhases := by
    rw [h1]; simp
  have h2 := primaryVarSwitch_bothPhases ctx (primaryVarSwitch ctx sol dat g).1
    ((primaryVarSwitch ctx sol dat g).2.1) g hps2
  rw [if_pos (le_of_eq hsn)] at h2
  refine ⟨by rw [h1], hps2, by rw [h2], by rw [h2]; simp, ?_⟩
  rw [h2]
  simp [writeSwitchVar]

/-- Witness for C6 at a concrete input. -/
theorem primaryVarSwitch_endToEnd_spec_witness :
    (primaryVarSwitch c6Ctx sampleSol c6Dat 0).2.2 = true ∧
    (((primaryVarSwitch c6Ctx sampleSol c6Dat 0).2.1) 0).phaseState =
      bothPhases ∧
    (primaryVarSwitch c6Ctx (primaryVarSwitch c6Ctx sampleSol c6Dat 0).1
      ((primaryVarSwitch c6Ctx sampleSol c6Dat 0).2.1) 0).2.2 = true ∧
    ((primaryVarSwitch c6Ctx (primaryVarSwitch c6Ctx sampleSol c6Dat 0).1
      ((primaryVarSwitch c6Ctx sampleSol c6Dat 0).2.1) 0).2.1 0).phaseState =
        wPhaseOnly ∧
    (primaryVarSwitch c6Ctx (primaryVarSwitch c6Ctx sampleSol c6Dat 0).1
      ((primaryVarSwitch c6Ctx sampleSol c6Dat 0).2.1) 0).1 0 switchIdx =
      c6Ctx.multicomp.xAW
        ((switchVD c6Ctx (primaryVarSwitch c6Ctx sampleSol c6Dat 0).1
          ((primaryVarSwitch c6Ctx sampleSol c6Dat 0).2.1) 0).pressure nPhase)
        (c6Ctx.temperature ((primaryVarSwitch c6Ctx sampleSol c6Dat 0).1 0)) :=
  primaryVarSwitch_endToEnd_spec c6Ctx sampleSol c6Dat 0 (by decide) (by decide)
    (by norm_num [switchVD, c6Ctx, c6Dat, c6vdW, wPhaseOnly])
    (by norm_num [xAWunscaled, switchVD, c6Ctx, c6Dat, c6vdW, wPhaseOnly])
    (by
      have h1 := primaryVarSwitch_wPhaseOnly c6Ctx sampleSol c6Dat 0 rfl
      rw [if_pos (by
        norm_num [xAWthreshold, xAWunscaled, switchVD, c6Ctx, c6Dat, c6vdW,
          wPhaseOnly])] at h1
      rw [h1]
      norm_num [switchVD, c6Ctx, c6vdB, bothPhases, wPhaseOnly])

/-- Writing the switch variable of vertex `g` leaves every other vertex's
primary variables untouched. -/
lemma writeSwitchVar_apply_ne (sol : ℕ → Fin 2 → ℚ) (g : ℕ) (v : ℚ) (j : ℕ)
    (h : j ≠ g) : writeSwitchVar sol g v j = sol j := by
  simp [writeSwitchVar, Function.update_noteq h]

/-- Writing the switch variable of vertex `g` leaves its pressure slot
untouched. -/
lemma writeSwitchVar_pressure (sol : ℕ → Fin 2 → ℚ) (g : ℕ) (v : ℚ) :
    writeSwitchVar sol g v g pressureIdx = sol g pressureIdx := by
  simp [writeSwitchVar, Function.update_apply, pressureIdx, switchIdx]

/-- A switch evaluation updates the static data only at the evaluated vertex,
and there only the `phaseState` and `wasSwitched` fields. -/
lemma primaryVarSwitch_dat_shape (ctx : SwitchCtx) (sol : ℕ → Fin 2 → ℚ)
    (dat : ℕ → StaticVertexData) (g : ℕ) :
    ∃ ps ws, (primaryVarSwitch ctx sol dat g).2.1 =
      Function.update dat g
        { dat g with phaseState := ps, wasSwitched := ws } :=
  ⟨_, _, rfl⟩

/-- A switch evaluation either leaves the global solution unchanged or writes
exactly the switch-variable slot of the evaluated vertex. -/
lemma primaryVarSwitch_sol_cases (ctx : SwitchCtx) (sol : ℕ → Fin 2 → ℚ)
    (dat : ℕ → StaticVertexData) (g : ℕ) :
    (primaryVarSwitch ctx sol dat g).1 = sol ∨
    ∃ v, (primaryVarSwitch ctx sol dat g).1 = writeSwitchVar sol g v := by
  by_cases h1 : (dat g).phaseState = nPhaseOnly
  · rw [primaryVarSwitch_nPhaseOnly ctx sol dat g h1]
    split_ifs
    · exact Or.inr ⟨_, rfl⟩
    · exact Or.inl rfl
  · by_cases h2 : (dat g).phaseState = wPhaseOnly
    · rw [primaryVarSwitch_wPhaseOnly ctx sol dat g h2]
      split_ifs
      · exact Or.inr ⟨_, rfl⟩
      · exact Or.inl rfl
    · by_cases h3 : (dat g).phaseState = bothPhases
      · rw [primaryVarSwitch_bothPhases ctx sol dat g h3]
        split_ifs
        · exact Or.inr ⟨_, rfl⟩
        · exact Or.inr ⟨_, rfl⟩
        · exact Or.inl rfl
      · rw [primaryVarSwitch_otherState ctx sol dat g h1 h2 h3]
        exact Or.inl rfl

/-- If a switch evaluation reports no transition, the global solution is
completely unchanged. -/
lemma primaryVarSwitch_sol_of_false (ctx : SwitchCtx) (sol : ℕ → Fin 2 → ℚ)
    (dat : ℕ → StaticVertexData) (g : ℕ)
    (hf : (primaryVarSwitch ctx sol dat g).2.2 = false) :
    (primaryVarSwitch ctx sol dat g).1 = sol := by
  by_cases h1 : (dat g).phaseState = nPhaseOnly
  · rw [primaryVarSwitch_nPhaseOnly ctx sol dat g h1] at hf ⊢
    split_ifs at hf ⊢
    rfl
  · by_cases h2 : (dat g).phaseState = wPhaseOnly
    · rw [primaryVarSwitch_wPhaseOnly ctx sol dat g h2] at hf ⊢
      split_ifs at hf ⊢
      rfl
    · by_cases h3 : (dat g).phaseState = bothPhases
      · rw [primaryVarSwitch_bothPhases ctx sol dat g h3] at hf ⊢
        split_ifs at hf ⊢
        rfl
      · rw [primaryVarSwitch_otherState ctx sol dat g h1 h2 h3]

/-- C10: frame property of a switch evaluation — the global solution vector is
modified only when a transition fires, and then only the switch-variable slot
of the evaluated vertex (its pressure slot and every other vertex's primary
unknowns are untouched); the only persistent per-vertex data written are the
evaluated vertex's `phaseState` and `wasSwitched` fields. -/
theorem primaryVarSwitch_frame_spec (ctx : SwitchCtx) (sol : ℕ → Fin 2 → ℚ)
    (dat : ℕ → StaticVertexData) (g : ℕ) :
    ((primaryVarSwitch ctx sol dat g).2.2 = false →
      (primaryVarSwitch ctx sol dat g).1 = sol) ∧
    (∀ j, j ≠ g → (primaryVarSwitch ctx sol dat g).1 j = sol j) ∧
    ((primaryVarSwitch ctx sol dat g).1 g pressureIdx = sol g pressureIdx) ∧
    (∀ j, j ≠ g → (primaryVarSwitch ctx sol dat g).2.1 j = dat j) ∧
    (((primaryVarSwitch ctx sol dat g).2.1 g).oldPhaseState =
      (dat g).oldPhaseState) := by
  obtain ⟨ps, ws, hdat⟩ := primaryVarSwitch_dat_shape ctx sol dat g
  refine ⟨primaryVarSwitch_sol_of_false ctx sol dat g, ?_, ?_, ?_, ?_⟩
  · intro j hj
    rcases primaryVarSwitch_sol_cases ctx sol dat g with h | ⟨v, h⟩
    · rw [h]
    · rw [h]
      exact writeSwitchVar_apply_ne sol g v j hj
  · rcases primaryVarSwitch_sol_cases ctx sol dat g with h | ⟨v, h⟩
    · rw [h]
    · rw [h]
      exact writeSwitchVar_pressure sol g v
  · intro j hj
    rw [hdat]
    exact Function.update_noteq hj _ _
  · rw [hdat]
    simp

/-- Witness for C10 at a concrete input: the neighbouring vertex `1` is
untouched by an evaluation at vertex `0`. -/
theorem primaryVarSwitch_frame_spec_witness :
    (primaryVarSwitch sampleCtx sampleSol sampleDatB 0).1 1 = sampleSol 1 ∧
    (primaryVarSwitch sampleCtx sampleSol sampleDatB 0).2.1 1 = sampleDatB 1 ∧
    (primaryVarSwitch sampleCtx sampleSol sampleDatB 0).1 0 pressureIdx =
      sampleSol 0 pressureIdx :=
  ⟨(primaryVarSwitch_frame_spec sampleCtx sampleSol sampleDatB 0).2.1 1
      (by decide),
   (primaryVarSwitch_frame_spec sampleCtx sampleSol sampleDatB 0).2.2.2.1 1
      (by decide),
   (primaryVarSwitch_frame_spec sampleCtx sampleSol sampleDatB 0).2.2.1⟩

/-- C7: rollback correctness — after `resetPhaseState` the current phase state
of every vertex equals the old one, whatever switches were tentatively applied
before; the store keeps its size, so the loop covers every vertex. -/
theorem resetPhaseState_spec (l : List StaticVertexData) (i : ℕ)
    (h : i < l.length) (h2 : i < (resetPhaseState l).length) :
    (resetPhaseState l).length = l.length ∧
    ((resetPhaseState l).get ⟨i, h2⟩).phaseState =
      (l.get ⟨i, h⟩).oldPhaseState := by
  constructor
  · simp [resetPhaseState]
  · simp [resetPhaseState]

/-- Witness for C7 at a concrete input. -/
theorem resetPhaseState_spec_witness :
    (resetPhaseState [(⟨5, true, 7⟩ : StaticVertexData)]).length =
      [(⟨5, true, 7⟩ : StaticVertexData)].length ∧
    ((resetPhaseState [(⟨5, true, 7⟩ : StaticVertexData)]).get
        ⟨0, by decide⟩).phaseState =
      ([(⟨5, true, 7⟩ : StaticVertexData)].get ⟨0, by decide⟩).oldPhaseState :=
  resetPhaseState_spec [⟨5, true, 7⟩] 0 (by decide) (by decide)

/-- C8: each checkpoint operation reads or writes exactly one integer phase
state for its vertex; it raises an `IOError` identifying that vertex's index
exactly when its stream is not good, and on such an error the stream and the
stored per-vertex data are left completely unchanged (the check precedes any
read or write). -/
theorem checkpointEntity_spec (s : InStream) (o : OutStream)
    (dat : ℕ → StaticVertexData) (v : ℕ) :
    ((deserializeEntity s dat v).1 = some (.ioError v) ↔ s.good = false) ∧
    (s.good = false →
      (deserializeEntity s dat v).2.1 = s ∧
      (deserializeEntity s dat v).2.2 = dat) ∧
    (s.good = true →
      (deserializeEntity s dat v).1 = none ∧
      (deserializeEntity s dat v).2.1.pos = s.pos + 1 ∧
      ((deserializeEntity s dat v).2.2 v).phaseState = s.data s.pos ∧
      ((deserializeEntity s dat v).2.2 v).oldPhaseState = s.data s.pos ∧
      ∀ j, j ≠ v → (deserializeEntity s dat v).2.2 j = dat j) ∧
    ((serializeEntity o dat v).1 = some (.ioError v) ↔ o.good = false) ∧
    (o.good = false → (serializeEntity o dat v).2 = o) ∧
    (o.good = true →
      (serializeEntity o dat v).1 = none ∧
      (serializeEntity o dat v).2.written =
        o.written ++ [(dat v).phaseState]) := by
  cases hs : s.good <;> cases ho : o.good <;>
    simp [deserializeEntity, serializeEntity, hs, ho] <;>
    exact fun j hj => Function.update_noteq hj _ _

/-- Witness for C8 at a concrete input: a good in-stream and a good
out-stream. -/
theorem checkpointEntity_spec_witness :
    ((deserializeEntity sampleIn c6Dat 0).1 = none ∧
     (deserializeEntity sampleIn c6Dat 0).2.1.pos = sampleIn.pos + 1 ∧
     ((deserializeEntity sampleIn c6Dat 0).2.2 0).phaseState =
       sampleIn.data sampleIn.pos) ∧
    (serializeEntity sampleOut c6Dat 0).1 = none :=
  ⟨⟨((checkpointEntity_spec sampleIn sampleOut c6Dat 0).2.2.1 rfl).1,
    ((checkpointEntity_spec sampleIn sampleOut c6Dat 0).2.2.1 rfl).2.1,
    ((checkpointEntity_spec sampleIn sampleOut c6Dat 0).2.2.1 rfl).2.2.1⟩,
   ((checkpointEntity_spec sampleIn sampleOut c6Dat 0).2.2.2.2.2 rfl).1⟩

/-- On booleans, binary `max` is disjunction. -/
lemma bool_max_eq_or (a b : Bool) : max a b = (a || b) := by
  cases a <;> cases b <;> rfl

/-- The boolean `comm().max` reduction over the partitions' flags is their
logical OR. -/
lemma commMax_eq_any (xs : List Bool) : commMax xs = xs.any id := by
  have hfun : (fun a b : Bool => max a b) = (fun a b : Bool => a || b) := by
    funext a b
    exact bool_max_eq_or a b
  have haux : ∀ (ys : List Bool) (acc : Bool),
      ys.foldl (fun a b : Bool => a || b) acc = (acc || ys.any id) := by
    intro ys
    induction ys with
    | nil => intro acc; simp
    | cons y ys ih =>
      intro acc
      simp [ih, Bool.or_assoc]
  rw [commMax, hfun]
  simpa using haux xs false

/-- The accumulated flag of the vertex loop is the OR of the per-vertex
outcomes with the initial accumulator. -/
lemma updateStaticDataSweep_eq_any (ctx : SwitchCtx) (vs : List ℕ) :
    ∀ (sol : ℕ → Fin 2 → ℚ) (dat : ℕ → StaticVertexData) (acc : Bool),
      (updateStaticDataSweep ctx sol dat acc vs).2.2 =
        ((sweepOutcomes ctx sol dat vs).any id || acc) := by
  induction vs with
  | nil => intro sol dat acc; simp [updateStaticDataSweep, sweepOutcomes]
  | cons v vs ih =>
    intro sol dat acc
    simp [updateStaticDataSweep, sweepOutcomes, ih, Bool.or_assoc,
      Bool.or_comm, Bool.or_left_comm]

/-- C9: after `updateStaticData` has visited all vertices, the switch flag
stored on every partition equals the logical OR, across all cooperating mesh
partitions, of whether any vertex's switch evaluation performed a transition:
a switch decided on any partition makes the flag true on every partition. -/
theorem updateStaticData_spec (ctx : SwitchCtx) (parts : List Partition) :
    ∀ f ∈ updateStaticData ctx parts,
      (f = true ↔ ∃ p ∈ parts,
        ∃ b ∈ sweepOutcomes ctx p.sol p.dat p.verts, b = true) := by
  intro f hf
  simp only [updateStaticData] at hf
  rcases List.mem_map.mp hf with ⟨p0, hp0, hfe⟩
  subst hfe
  rw [commMax_eq_any, List.any_eq_true]
  constructor
  · rintro ⟨b, hbmem, hb⟩
    rcases List.mem_map.mp hbmem with ⟨p, hp, rfl⟩
    refine ⟨p, hp, ?_⟩
    rw [updateStaticDataSweep_eq_any] at hb
    simp only [id_eq, Bool.or_false] at hb
    rcases List.any_eq_true.mp hb with ⟨c, hcmem, hc⟩
    exact ⟨c, hcmem, by simpa using hc⟩
  · rintro ⟨p, hp, b, hb, hbt⟩
    refine ⟨(updateStaticDataSweep ctx p.sol p.dat false p.verts).2.2,
      List.mem_map_of_mem _ hp, ?_⟩
    rw [updateStaticDataSweep_eq_any]
    simp only [id_eq, Bool.or_false]
    exact List.any_eq_true.mpr ⟨b, hb, by simpa using hbt⟩

/-- Witness for C9 at a concrete input: a single partition whose single vertex
switches, making the stored flag true. -/
theorem updateStaticData_spec_witness :
    (true = true ↔ ∃ p ∈ [(⟨sampleSol, c6Dat, [0]⟩ : Partition)],
      ∃ b ∈ sweepOutcomes c6Ctx p.sol p.dat p.verts, b = true) :=
  updateStaticData_spec c6Ctx [⟨sampleSol, c6Dat, [0]⟩] true
    (by
      have h1 := primaryVarSwitch_wPhaseOnly c6Ctx sampleSol c6Dat 0 rfl
      rw [if_pos (by
        norm_num [xAWthreshold, xAWunscaled, switchVD, c6Ctx, c6Dat, c6vdW,
          wPhaseOnly])] at h1
      simp [updateStaticData, updateStaticDataSweep, commMax, h1,
        bool_max_eq_or])

end TwoPTwoC
